import Mathlib

/-!
Verification of the farm_engine repository against its specification.

Part 1 embeds the browser helper `src/static/js/check_indexing.js`, which
polls the `/indexing` endpoint and shows or hides the `flash` indicator
element according to the plain-text response body.

Part 2 models the index-engine core (Table / IndexEngine contract with the
CSV read-only engine and the IndexingCoordinator).  That Rust code is not
part of the repository snapshot (only documentation describes it), so those
definitions are modelled from the spec, as marked in their doc comments.
-/

namespace CheckIndexing

/-- Line 1 of `check_indexing.js`: `const checkInterval = 1000;`. -/
def checkInterval : Nat := 1000

/-- The numeric constant bindings in scope at the reschedule statement on
line 19 of `check_indexing.js`.  The script declares exactly one constant,
`checkInterval` (line 1); the function binding `checkIndexing` and the DOM
locals are not numeric and can never serve as a `setTimeout` delay, so they
are irrelevant to a delay-identifier lookup. -/
def scriptEnv : List (String × Nat) := [("checkInterval", checkInterval)]

/-- JavaScript identifier resolution for a numeric variable: the value bound
to `x` in `env`, or `none` when the identifier is undefined (a reference to
it throws a ReferenceError). -/
def lookupVar (env : List (String × Nat)) (x : String) : Option Nat :=
  (env.find? (fun p => p.1 = x)).map (fun p => p.2)

/-- The identifier passed as the delay argument of the `setTimeout` call on
line 19: `setTimeout(checkIndexing, interval);`. -/
def rescheduleDelayIdent : String := "interval"

/-- The DOM `classList.remove` operation: drops every occurrence of the token. -/
def classListRemove (cs : List String) (c : String) : List String :=
  cs.filter (fun x => x ≠ c)

/-- The DOM `classList.add` operation: appends the token unless already present. -/
def classListAdd (cs : List String) (c : String) : List String :=
  if c ∈ cs then cs else cs ++ [c]

/-- The DOM `classList.contains` operation. -/
def classListContains (cs : List String) (c : String) : Bool :=
  decide (c ∈ cs)

/-- Observable outcome of one run of the `onload` handler (lines 5-20). -/
structure OnloadResult where
  /-- final class list of the `flash` element -/
  classes : List String
  /-- whether `alert("There was an error trying to resume")` fired -/
  alerted : Bool
  /-- whether the handler aborted with a ReferenceError -/
  threw : Bool
  /-- delay passed to a successfully executed `setTimeout(checkIndexing, _)`,
  `none` when no further poll was scheduled -/
  scheduled : Option Nat
deriving DecidableEq, Repr

/-- The `onload` handler of `checkIndexing` (lines 5-20 of
`check_indexing.js`), as a function of the variable environment, the
response body `this.responseText`, and the current class list of the
`flash` element:

* body `=== "YES"` (line 7): remove `"hidden"` and `return` (lines 8-9);
* body `=== "NO"` (line 10): add `"hidden"` only if `contains("hidden")`
  (lines 11-13), then fall through;
* otherwise (line 14): `alert("There was an error trying to resume")`
  (line 15), then fall through;
* fall-through (line 19): `setTimeout(checkIndexing, interval)` — the delay
  expression is the identifier `interval`, resolved in the environment; an
  undefined identifier throws before anything is scheduled. -/
def checkIndexingOnload (env : List (String × Nat)) (responseText : String)
    (classes : List String) : OnloadResult :=
  if responseText = "YES" then
    { classes := classListRemove classes "hidden"
      alerted := false
      threw := false
      scheduled := none }
  else
    let classes1 :=
      if responseText = "NO" then
        if classListContains classes "hidden" then classListAdd classes "hidden"
        else classes
      else classes
    let alerted1 : Bool := if responseText = "NO" then false else true
    match lookupVar env rescheduleDelayIdent with
    | some d =>
        { classes := classes1, alerted := alerted1, threw := false, scheduled := some d }
    | none =>
        { classes := classes1, alerted := alerted1, threw := true, scheduled := none }

/-- The three branches of the `if / else if / else` chain on lines 7-16. -/
inductive HandlerBranch
  | yesBranch
  | noBranch
  | errorBranch
deriving DecidableEq, Repr

/-- Branch dispatch of the handler on the response body (lines 7, 10, 14):
strict string equality against `"YES"`, then against `"NO"`, else the error
branch. -/
def handlerBranch (responseText : String) : HandlerBranch :=
  if responseText = "YES" then HandlerBranch.yesBranch
  else if responseText = "NO" then HandlerBranch.noBranch
  else HandlerBranch.errorBranch

/-- Timers scheduled by executing the top level of `check_indexing.js`: the
script top level consists of the `const` declaration (line 1) and the
function declaration (lines 3-23) only — the kickoff
`setTimeout(checkIndexing, checkInterval)` on line 25 is commented out —
so no timer is scheduled at load. -/
def topLevelTimers : List (String × Nat) := []

end CheckIndexing

namespace Engine

/-- Modelled from the spec: the repository snapshot contains no implementation
of the engine (only documentation), so the index-engine core — RowFlag (§3),
the CSV read-only build algorithm (§4.2), lookup (§4.1) and the
IndexingCoordinator (§4.4) — is modelled from the specification text.
RowFlag is the tri-state per-row marker `{include, exclude, skip}`. -/
inductive RowFlag
  | included
  | excluded
  | skipped
deriving DecidableEq, Repr

/-- Modelled from the spec (§3): per-table indexing lifecycle state. -/
inductive IndexingState
  | idle
  | building
  | ready
  | failed
deriving DecidableEq, Repr

/-- Modelled from the spec (§7): the error taxonomy of the engine. -/
inductive ErrorKind
  | BuildInProgress
  | NotReady
  | Cancelled
  | SourceUnreadable
deriving DecidableEq, Repr

/-- Modelled from the spec (§6): the build configuration — CSV dialect
(modelled by its delimiter), the flag rule (a predicate over the parsed row),
and the ordered key columns. -/
structure IndexConfig where
  delim : Char
  flagRule : List String → RowFlag
  keyColumns : List Nat

/-- Modelled from the spec (§4.2 step 2): split the characters of a physical
row at the delimiter — the modelled CSV dialect is plain delimiter
separation. -/
def splitChars (delim : Char) : List Char → List String
  | [] => [""]
  | c :: cs =>
    match splitChars delim cs with
    | [] => [String.mk [c]]
    | f :: fs =>
      if c = delim then "" :: f :: fs
      else String.mk (c :: f.data) :: fs

/-- Modelled from the spec (§4.2 step 2): parse the fields of a physical row
according to the CSV dialect in effect; `none` marks a malformed row (here:
an empty physical row), which is assigned skip. -/
def parseFields (delim : Char) (raw : String) : Option (List String) :=
  if raw = "" then none else some (splitChars delim raw.data)

/-- Modelled from the spec (§4.2 step 4): derive the lookup key from the
configured key columns of the parsed row; `none` when a key column is absent,
in which case the row is treated as skip (§4.2, numeric/encoding semantics). -/
def rowKey (cfg : IndexConfig) (fields : List String) : Option String :=
  (cfg.keyColumns.mapM (fun i => fields.get? i)).map (String.intercalate ",")

/-- Modelled from the spec (§4.2 steps 2-3): flag assignment for a physical
row — malformed rows and rows whose key fails to derive are skip; otherwise
the configured flag rule assigns include or exclude (or skip). -/
def rowFlag (cfg : IndexConfig) (raw : String) : RowFlag :=
  match parseFields cfg.delim raw with
  | none => RowFlag.skipped
  | some fields =>
    match rowKey cfg fields with
    | none => RowFlag.skipped
    | some _ => cfg.flagRule fields

/-- Modelled from the spec (§3 Row): pair each physical row, in file order,
with the byte offset of its row start (each row occupies its UTF-8 bytes
plus one newline byte). -/
def withOffsets : List String → Nat → List (Nat × String)
  | [], _ => []
  | r :: rs, o => (o, r) :: withOffsets rs (o + r.utf8ByteSize + 1)

/-- Modelled from the spec (§3 IndexEntry, §4.2 step 6): insert an IndexEntry
`key ↦ offset` into the in-progress index structure; a later entry with the
same key supersedes (replaces) any earlier one — last-write-wins. -/
def insertEntry (idx : List (String × Nat)) (k : String) (off : Nat) :
    List (String × Nat) :=
  idx.filter (fun e => e.1 ≠ k) ++ [(k, off)]

/-- Modelled from the spec (§4.2 steps 2-4): the IndexEntry contributed by one
physical row at its offset: `some (key, offset)` when the row is flagged
include (its key then derives), `none` for skip and exclude rows. -/
def entryOf (cfg : IndexConfig) (p : Nat × String) : Option (String × Nat) :=
  if rowFlag cfg p.2 = RowFlag.included then
    match (parseFields cfg.delim p.2).bind (rowKey cfg) with
    | some k => some (k, p.1)
    | none => none
  else none

/-- Modelled from the spec (§4.2): process one row of the stream — classify
it and, when it contributes an entry, insert that entry. -/
def buildStep (cfg : IndexConfig) (idx : List (String × Nat)) (p : Nat × String) :
    List (String × Nat) :=
  match entryOf cfg p with
  | some e => insertEntry idx e.1 e.2
  | none => idx

/-- Modelled from the spec (§4.2 build algorithm): stream the dataset rows in
file order starting at offset 0 and fold the per-row step into the final
key ↦ offset index structure. -/
def build (cfg : IndexConfig) (rows : List String) : List (String × Nat) :=
  (withOffsets rows 0).foldl (buildStep cfg) []

/-- Modelled from the spec (§4.1 lookup): exact-key match against a completed
index structure. -/
def lookupKey (idx : List (String × Nat)) (k : String) : Option Nat :=
  (idx.find? (fun e => e.1 = k)).map (fun e => e.2)

/-- Claim-side reference: the (key, offset) pairs of the include rows of the
dataset, in file order. -/
def includeEntriesFrom (cfg : IndexConfig) (l : List (Nat × String)) :
    List (String × Nat) :=
  l.filterMap (entryOf cfg)

/-- Claim-side reference: the include-row (key, offset) pairs of the whole
dataset, in file order. -/
def includeEntries (cfg : IndexConfig) (rows : List String) : List (String × Nat) :=
  includeEntriesFrom cfg (withOffsets rows 0)

/-- Claim-side reference: the offset of the last include row, in file order,
that derives the key `k`. -/
def lastIncludeOffset (cfg : IndexConfig) (rows : List String) (k : String) :
    Option Nat :=
  ((includeEntries cfg rows).reverse.find? (fun e => e.1 = k)).map (fun e => e.2)

/-- Modelled from the spec (§4.4): the per-table IndexingCoordinator — the
lifecycle state and the active (atomically swapped-in) index. -/
structure Coordinator where
  state : IndexingState
  activeIndex : Option (List (String × Nat))
deriving Repr

/-- Modelled from the spec (§4.1 build, §4.4): a build request is rejected
with `BuildInProgress` while a build is in flight, leaving the coordinator
untouched; otherwise the state transitions to `building`.  Spec §5
serializes build requests per table, so two concurrent requests are
modelled as two requests in sequence. -/
def requestBuild (c : Coordinator) : Coordinator × Option ErrorKind :=
  if c.state = IndexingState.building then (c, some ErrorKind.BuildInProgress)
  else ({ c with state := IndexingState.building }, none)

/-- Modelled from the spec (§4.2 step 5, §4.4): a build request followed by
the build running to successful completion — the freshly built index is
atomically swapped in and the state becomes `ready`; a rejected request
changes nothing. -/
def completeBuild (cfg : IndexConfig) (rows : List String) (c : Coordinator) :
    Coordinator × Option ErrorKind :=
  match requestBuild c with
  | (c1, some e) => (c1, some e)
  | (c1, none) =>
      ({ c1 with state := IndexingState.ready, activeIndex := some (build cfg rows) },
       none)

/-- The flag rule of the example scenarios in spec §8: column `flag` (index 1)
equal to `"yes"` means include, `"no"` means exclude, anything else skip. -/
def exampleFlagRule (fields : List String) : RowFlag :=
  match fields.get? 1 with
  | some "yes" => RowFlag.included
  | some "no" => RowFlag.excluded
  | _ => RowFlag.skipped

/-- The example configuration of spec §8: comma delimiter, key column `id`
(index 0), the example flag rule. -/
def cfg0 : IndexConfig :=
  { delim := ',', flagRule := exampleFlagRule, keyColumns := [0] }

/-- The duplicate-key example dataset of spec §8. -/
def rows0 : List String := ["id,flag", "1,yes", "1,yes"]

end Engine


namespace CheckIndexing

/-- C1: the handler interprets the `/indexing` response body by strict string
equality: the YES branch is taken iff the body equals `"YES"`, the NO branch
iff it equals `"NO"`, and any other body falls to the error branch. -/
theorem C1_branch_dispatch (body : String) :
    (handlerBranch body = HandlerBranch.yesBranch ↔ body = "YES") ∧
    (handlerBranch body = HandlerBranch.noBranch ↔ body = "NO") ∧
    (body ≠ "YES" → body ≠ "NO" → handlerBranch body = HandlerBranch.errorBranch) := by
  unfold handlerBranch
  by_cases hy : body = "YES" <;> by_cases hn : body = "NO" <;> simp_all

theorem C1_branch_dispatch_witness :
    handlerBranch "MAYBE" = HandlerBranch.errorBranch :=
  (C1_branch_dispatch "MAYBE").2.2 (by decide) (by decide)

/-- C2 (evaluation at the failing inputs): the claim that a poll is issued
about every 1000 ms fails on the code.  The top level schedules no timer
(the kickoff on line 25 is commented out), and each handled non-`"YES"`
response throws a ReferenceError at the reschedule — the delay identifier
`interval` is undefined — so no further poll is ever scheduled. -/
theorem C2_no_poll_is_scheduled :
    topLevelTimers = [] ∧
    lookupVar scriptEnv rescheduleDelayIdent = none ∧
    checkIndexingOnload scriptEnv "NO" ["hidden"] =
      { classes := ["hidden"], alerted := false, threw := true, scheduled := none } ∧
    checkIndexingOnload scriptEnv "OTHER" [] =
      { classes := [], alerted := true, threw := true, scheduled := none } :=
  ⟨rfl, by decide, by decide, by decide⟩

/-- C3: the handler raises the alert `"There was an error trying to resume"`
exactly for response bodies that are neither `"YES"` nor `"NO"`. -/
theorem C3_alert_iff (env : List (String × Nat)) (body : String)
    (classes : List String) :
    (checkIndexingOnload env body classes).alerted = true ↔
      (body ≠ "YES" ∧ body ≠ "NO") := by
  unfold checkIndexingOnload
  by_cases hy : body = "YES"
  · simp [hy]
  · by_cases hn : body = "NO" <;>
      cases hfind : lookupVar env rescheduleDelayIdent <;> simp [hy, hn, hfind]

theorem C3_alert_iff_witness :
    (checkIndexingOnload scriptEnv "OOPS" []).alerted = true :=
  (C3_alert_iff scriptEnv "OOPS" []).mpr ⟨by decide, by decide⟩

/-- C4: the reschedule on line 19 passes the identifier `interval`, which the
script never defines (the declared constant is `checkInterval`), so on every
path that reaches it — every response body other than `"YES"` — the handler
throws a ReferenceError and schedules no further poll. -/
theorem C4_reschedule_throws :
    rescheduleDelayIdent = "interval" ∧
    (∀ v ∈ scriptEnv, v.1 ≠ rescheduleDelayIdent) ∧
    lookupVar scriptEnv rescheduleDelayIdent = none ∧
    ∀ body classes, body ≠ "YES" →
      (checkIndexingOnload scriptEnv body classes).threw = true ∧
      (checkIndexingOnload scriptEnv body classes).scheduled = none := by
  refine ⟨rfl, by decide, by decide, ?_⟩
  intro body classes hy
  unfold checkIndexingOnload
  have hfind : lookupVar scriptEnv rescheduleDelayIdent = none := by decide
  by_cases hn : body = "NO" <;> simp [hy, hn, hfind]

theorem C4_reschedule_throws_witness :
    (checkIndexingOnload scriptEnv "NO" []).threw = true ∧
    (checkIndexingOnload scriptEnv "NO" []).scheduled = none :=
  C4_reschedule_throws.2.2.2 "NO" [] (by decide)

/-- C5: handling a `"NO"` response leaves the class list of the flash element
unchanged for every starting class list — the handler only adds `"hidden"`
when it is already present (a no-op) and removes nothing — so an indicator
that is visible stays visible. -/
theorem C5_no_branch_frame (env : List (String × Nat)) (classes : List String) :
    (checkIndexingOnload env "NO" classes).classes = classes := by
  unfold checkIndexingOnload classListContains classListAdd
  cases hfind : lookupVar env rescheduleDelayIdent <;>
    by_cases h : "hidden" ∈ classes <;> simp [h, hfind]

/-- C6: handling a `"YES"` response removes `"hidden"` from the flash element
and returns immediately: afterwards the class list does not contain
`"hidden"`, no alert fires, nothing is thrown, and no further poll is
scheduled by this handler. -/
theorem C6_yes_branch (env : List (String × Nat)) (classes : List String) :
    (checkIndexingOnload env "YES" classes).classes = classListRemove classes "hidden" ∧
    "hidden" ∉ (checkIndexingOnload env "YES" classes).classes ∧
    (checkIndexingOnload env "YES" classes).alerted = false ∧
    (checkIndexingOnload env "YES" classes).threw = false ∧
    (checkIndexingOnload env "YES" classes).scheduled = none := by
  refine ⟨?_, ?_, ?_, ?_, ?_⟩ <;> simp [checkIndexingOnload, classListRemove]

end CheckIndexing

namespace Engine

theorem includeEntriesFrom_cons (cfg : IndexConfig) (p : Nat × String)
    (t : List (Nat × String)) :
    includeEntriesFrom cfg (p :: t) =
      match entryOf cfg p with
      | some e => e :: includeEntriesFrom cfg t
      | none => includeEntriesFrom cfg t := by
  unfold includeEntriesFrom
  cases he : entryOf cfg p <;> simp [List.filterMap_cons, he]

theorem map_fst_filter_ne (idx : List (String × Nat)) (k : String) :
    (idx.filter (fun e => e.1 ≠ k)).map Prod.fst
      = (idx.map Prod.fst).filter (fun a => a ≠ k) := by
  induction idx with
  | nil => rfl
  | cons e t ih =>
    simp only [decide_not] at ih ⊢
    by_cases h : e.1 = k <;> simp [List.filter_cons, h, ih]

theorem nodup_keys_insertEntry (idx : List (String × Nat)) (k : String) (off : Nat)
    (h : (idx.map Prod.fst).Nodup) :
    ((insertEntry idx k off).map Prod.fst).Nodup := by
  unfold insertEntry
  rw [List.map_append, map_fst_filter_ne]
  refine List.Nodup.append (h.filter _) ?_ ?_
  · simp
  · intro a ha hb
    rw [List.mem_filter] at ha
    simp at hb
    rw [hb] at ha
    simp at ha

theorem nodup_keys_foldl (cfg : IndexConfig) (l : List (Nat × String))
    (idx : List (String × Nat)) (h : (idx.map Prod.fst).Nodup) :
    ((l.foldl (buildStep cfg) idx).map Prod.fst).Nodup := by
  induction l generalizing idx with
  | nil => exact h
  | cons p t ih =>
    rw [List.foldl_cons]
    apply ih
    unfold buildStep
    cases he : entryOf cfg p with
    | none => exact h
    | some e => exact nodup_keys_insertEntry idx e.1 e.2 h

theorem mem_foldl_buildStep (cfg : IndexConfig) (l : List (Nat × String)) :
    ∀ (idx : List (String × Nat)) (x : String × Nat),
      x ∈ l.foldl (buildStep cfg) idx → x ∈ includeEntriesFrom cfg l ∨ x ∈ idx := by
  induction l with
  | nil => intro idx x hx; exact Or.inr hx
  | cons p t ih =>
    intro idx x hx
    rw [List.foldl_cons] at hx
    rcases ih (buildStep cfg idx p) x hx with h | h
    · left
      rw [includeEntriesFrom_cons]
      cases he : entryOf cfg p
      · exact h
      · exact List.mem_cons_of_mem _ h
    · unfold buildStep at h
      cases he : entryOf cfg p with
      | none =>
        simp only [he] at h
        exact Or.inr h
      | some e =>
        simp only [he] at h
        unfold insertEntry at h
        rcases List.mem_append.mp h with h1 | h1
        · exact Or.inr (List.mem_of_mem_filter h1)
        · left
          rw [includeEntriesFrom_cons]
          simp only [he]
          have hx1 : x = e := by simpa using h1
          rw [hx1]
          exact List.mem_cons_self e _

theorem lookupKey_cons_of_ne (e : String × Nat) (t : List (String × Nat))
    (k : String) (h : ¬ (e.1 = k)) : lookupKey (e :: t) k = lookupKey t k := by
  unfold lookupKey
  rw [List.find?_cons_of_neg]
  simpa using h

theorem lookupKey_insertEntry_self (idx : List (String × Nat)) (k : String)
    (off : Nat) : lookupKey (insertEntry idx k off) k = some off := by
  unfold lookupKey insertEntry
  rw [List.find?_append]
  have h1 : (idx.filter (fun e => decide (e.1 ≠ k))).find?
      (fun e => decide (e.1 = k)) = none := by
    rw [List.find?_eq_none]
    intro x hx
    have h2 := (List.mem_filter.mp hx).2
    simp at h2 ⊢
    exact h2
  rw [h1, Option.none_or]
  simp

theorem find?_pred_congr {α : Type} {p q : α → Bool} (l : List α)
    (h : ∀ a, p a = q a) : l.find? p = l.find? q := by
  induction l with
  | nil => rfl
  | cons a t ih => rw [List.find?_cons, List.find?_cons, h a, ih]

theorem lookupKey_insertEntry_ne (idx : List (String × Nat)) (k k0 : String)
    (off : Nat) (h : ¬ (k0 = k)) :
    lookupKey (insertEntry idx k off) k0 = lookupKey idx k0 := by
  unfold lookupKey insertEntry
  rw [List.find?_append]
  have h2 : List.find? (fun e => decide (e.1 = k0)) [(k, off)] = none := by
    simp
    exact fun hh => h hh.symm
  rw [h2, Option.or_none, List.find?_filter]
  congr 1
  apply find?_pred_congr
  intro a
  by_cases ha : a.1 = k0
  · have hak : ¬ (a.1 = k) := by
      rw [ha]
      exact h
    simp [ha, hak]
    exact h
  · simp [ha]

end Engine

namespace Engine

theorem lookupKey_foldl (cfg : IndexConfig) (l : List (Nat × String)) :
    ∀ (idx : List (String × Nat)) (k : String),
      lookupKey (l.foldl (buildStep cfg) idx) k =
        (((includeEntriesFrom cfg l).reverse.find? (fun e => e.1 = k)).map
            (fun e => e.2)).or (lookupKey idx k) := by
  induction l with
  | nil => intro idx k; rfl
  | cons p t ih =>
    intro idx k
    rw [List.foldl_cons, ih (buildStep cfg idx p) k, includeEntriesFrom_cons]
    unfold buildStep
    cases he : entryOf cfg p with
    | none => rfl
    | some e =>
      rw [List.reverse_cons, List.find?_append]
      cases hf : (includeEntriesFrom cfg t).reverse.find? (fun x => decide (x.1 = k)) with
      | some e0 => rfl
      | none =>
        simp only [Option.map_none', Option.none_or]
        by_cases hk : e.1 = k
        · have h1 : List.find? (fun x => decide (x.1 = k)) [e] = some e := by
            simp [hk]
          rw [h1]
          have h2 : ((some e).map (fun x : String × Nat => x.2)).or (lookupKey idx k)
              = some e.2 := rfl
          rw [h2, ← hk]
          exact lookupKey_insertEntry_self idx e.1 e.2
        · have h1 : List.find? (fun x => decide (x.1 = k)) [e] = none := by
            simp [hk]
          rw [h1]
          simp only [Option.map_none', Option.none_or]
          exact lookupKey_insertEntry_ne idx e.1 k e.2 (fun hh => hk hh.symm)

theorem lookupKey_build (cfg : IndexConfig) (rows : List String) (k : String) :
    lookupKey (build cfg rows) k = lastIncludeOffset cfg rows k := by
  unfold build lastIncludeOffset includeEntries
  rw [lookupKey_foldl cfg (withOffsets rows 0) [] k]
  have h1 : lookupKey ([] : List (String × Nat)) k = none := rfl
  rw [h1, Option.or_none]

theorem lookupKey_of_mem_of_nodup (idx : List (String × Nat)) (k : String)
    (off : Nat) (hmem : (k, off) ∈ idx) (hnd : (idx.map Prod.fst).Nodup) :
    lookupKey idx k = some off := by
  induction idx with
  | nil => cases hmem
  | cons e t ih =>
    rw [List.map_cons, List.nodup_cons] at hnd
    rcases List.mem_cons.mp hmem with he | ht
    · rw [← he]
      simp [lookupKey]
    · have hek : ¬ (e.1 = k) := by
        intro hh
        exact hnd.1 (hh ▸ List.mem_map_of_mem Prod.fst ht)
      rw [lookupKey_cons_of_ne e t k hek]
      exact ih ht hnd.2

theorem length_filter_key_le_one (idx : List (String × Nat)) (k : String)
    (hnd : (idx.map Prod.fst).Nodup) :
    (idx.filter (fun e => e.1 = k)).length ≤ 1 := by
  induction idx with
  | nil => simp
  | cons e t ih =>
    rw [List.map_cons, List.nodup_cons] at hnd
    by_cases hek : e.1 = k
    · have hft : t.filter (fun e => decide (e.1 = k)) = [] := by
        rw [List.filter_eq_nil_iff]
        intro x hx hpx
        apply hnd.1
        rw [hek]
        have hxk : x.1 = k := by simpa using hpx
        exact hxk ▸ List.mem_map_of_mem Prod.fst hx
      simp [List.filter_cons, hek, hft]
    · have hd : (decide (e.1 = k)) = false := by simpa using hek
      rw [List.filter_cons, hd]
      simp only [Bool.false_eq_true, if_false]
      exact ih hnd.2

theorem fst_le_of_mem_withOffsets (rows : List String) :
    ∀ (o : Nat) (p : Nat × String), p ∈ withOffsets rows o → o ≤ p.1 := by
  induction rows with
  | nil =>
    intro o p h
    cases h
  | cons r t ih =>
    intro o p h
    rcases List.mem_cons.mp h with h1 | h1
    · rw [h1]
    · have h2 := ih (o + r.utf8ByteSize + 1) p h1
      omega

theorem snd_unique_of_mem_withOffsets (rows : List String) :
    ∀ (o off : Nat) (a b : String),
      (off, a) ∈ withOffsets rows o → (off, b) ∈ withOffsets rows o → a = b := by
  induction rows with
  | nil =>
    intro o off a b ha _
    cases ha
  | cons r t ih =>
    intro o off a b ha hb
    rcases List.mem_cons.mp ha with h1 | h1 <;> rcases List.mem_cons.mp hb with h2 | h2
    · have e1 : a = r := congrArg Prod.snd h1
      have e2 : b = r := congrArg Prod.snd h2
      rw [e1, e2]
    · exfalso
      have e1 : off = o := congrArg Prod.fst h1
      have hle : o + r.utf8ByteSize + 1 ≤ off :=
        fst_le_of_mem_withOffsets t (o + r.utf8ByteSize + 1) (off, b) h2
      omega
    · exfalso
      have e1 : off = o := congrArg Prod.fst h2
      have hle : o + r.utf8ByteSize + 1 ≤ off :=
        fst_le_of_mem_withOffsets t (o + r.utf8ByteSize + 1) (off, a) h1
      omega
    · exact ih (o + r.utf8ByteSize + 1) off a b h1 h2

theorem entryOf_eq_some (cfg : IndexConfig) (p : Nat × String) (e : String × Nat)
    (h : entryOf cfg p = some e) :
    rowFlag cfg p.2 = RowFlag.included ∧ e.2 = p.1 := by
  unfold entryOf at h
  by_cases hf : rowFlag cfg p.2 = RowFlag.included
  · rw [if_pos hf] at h
    refine ⟨hf, ?_⟩
    cases hk : (parseFields cfg.delim p.2).bind (rowKey cfg) with
    | none =>
      rw [hk] at h
      cases h
    | some k =>
      rw [hk] at h
      injection h with h1
      rw [← h1]
  · rw [if_neg hf] at h
    cases h

end Engine

namespace Engine

/-- C7: a build request made while the coordinator of the table is already in
the `building` state fails with `ErrorKind.BuildInProgress` and leaves the
coordinator exactly as it was (the request is rejected, not queued, and the
in-progress build state is not corrupted); and of two serialized build
requests from a non-building state, the first proceeds to `building` and the
second is rejected with `BuildInProgress` without changing the coordinator. -/
theorem C7_build_in_progress :
    (∀ c : Coordinator, c.state = IndexingState.building →
        requestBuild c = (c, some ErrorKind.BuildInProgress)) ∧
    (∀ c : Coordinator, c.state ≠ IndexingState.building →
        (requestBuild c).2 = none ∧
        (requestBuild c).1.state = IndexingState.building ∧
        (requestBuild c).1.activeIndex = c.activeIndex ∧
        requestBuild (requestBuild c).1 =
          ((requestBuild c).1, some ErrorKind.BuildInProgress)) := by
  constructor
  · intro c h
    simp [requestBuild, h]
  · intro c h
    simp [requestBuild, h]

theorem C7_build_in_progress_witness :
    requestBuild { state := IndexingState.building, activeIndex := none } =
      ({ state := IndexingState.building, activeIndex := none },
        some ErrorKind.BuildInProgress) ∧
    (requestBuild { state := IndexingState.idle, activeIndex := none }).2 = none :=
  ⟨C7_build_in_progress.1 { state := IndexingState.building, activeIndex := none } rfl,
   (C7_build_in_progress.2 { state := IndexingState.idle, activeIndex := none }
      (by decide)).1⟩

/-- C8 fails on the duplicate-key example of spec §8: the first include row
`"1,yes"` of `rows0` sits at offset 8 and derives key `"1"`, but the
completed index holds no entry mapping `"1"` to offset 8 — the later
duplicate at offset 14 superseded it — so it is not the case that every
include row has exactly one IndexEntry mapping its key to its row offset. -/
theorem C8_counterexample :
    (8, "1,yes") ∈ withOffsets rows0 0 ∧
    rowFlag cfg0 "1,yes" = RowFlag.included ∧
    entryOf cfg0 (8, "1,yes") = some ("1", 8) ∧
    build cfg0 rows0 = [("1", 14)] ∧
    ("1", 8) ∉ build cfg0 rows0 :=
  ⟨by decide, by decide, by decide, by decide, by decide⟩

/-- C8 (amended): for every completed index — every IndexEntry is the
(key, offset) pair of an include row, and its offset is that of the last
include row in file order deriving that key; every key derived by some
include row has exactly one IndexEntry (so an include row superseded by a
later include row with the same key has no entry at its own offset); and no
IndexEntry references a row flagged skip or exclude. -/
theorem C8_no_leak_amended (cfg : IndexConfig) (rows : List String) :
    (∀ e : String × Nat, e ∈ build cfg rows →
        e ∈ includeEntries cfg rows ∧ lastIncludeOffset cfg rows e.1 = some e.2) ∧
    (∀ e : String × Nat, e ∈ includeEntries cfg rows →
        ((build cfg rows).filter (fun x => x.1 = e.1)).length = 1) ∧
    (∀ e : String × Nat, e ∈ build cfg rows → ∀ raw : String,
        (e.2, raw) ∈ withOffsets rows 0 → rowFlag cfg raw = RowFlag.included) := by
  have hnd : ((build cfg rows).map Prod.fst).Nodup :=
    nodup_keys_foldl cfg (withOffsets rows 0) [] (by simp)
  refine ⟨?_, ?_, ?_⟩
  · intro e he
    have hmem : e ∈ includeEntries cfg rows := by
      rcases mem_foldl_buildStep cfg (withOffsets rows 0) [] e he with h | h
      · exact h
      · cases h
    refine ⟨hmem, ?_⟩
    rw [← lookupKey_build]
    obtain ⟨k, off⟩ := e
    exact lookupKey_of_mem_of_nodup (build cfg rows) k off he hnd
  · intro e he
    have hle : ((build cfg rows).filter (fun x => x.1 = e.1)).length ≤ 1 :=
      length_filter_key_le_one (build cfg rows) e.1 hnd
    have hfs : ((includeEntries cfg rows).reverse.find?
        (fun x => decide (x.1 = e.1))).isSome := by
      rw [List.find?_isSome]
      exact ⟨e, List.mem_reverse.mpr he, by simp⟩
    obtain ⟨x0, hx0⟩ := Option.isSome_iff_exists.mp hfs
    have hlast : lastIncludeOffset cfg rows e.1 = some x0.2 := by
      unfold lastIncludeOffset
      rw [hx0]
      rfl
    have hlook : lookupKey (build cfg rows) e.1 = some x0.2 := by
      rw [lookupKey_build]
      exact hlast
    unfold lookupKey at hlook
    obtain ⟨x, hxfind, hxv⟩ := Option.map_eq_some'.mp hlook
    have hxmem : x ∈ build cfg rows := List.mem_of_find?_eq_some hxfind
    have hxkey : x.1 = e.1 := by
      have h3 := List.find?_some hxfind
      simpa using h3
    have hxfil : x ∈ (build cfg rows).filter (fun x => x.1 = e.1) := by
      rw [List.mem_filter]
      exact ⟨hxmem, by simpa using hxkey⟩
    have hge : 0 < ((build cfg rows).filter (fun x => x.1 = e.1)).length :=
      List.length_pos_of_mem hxfil
    omega
  · intro e he raw hraw
    rcases mem_foldl_buildStep cfg (withOffsets rows 0) [] e he with h | h
    · unfold includeEntriesFrom at h
      rw [List.mem_filterMap] at h
      obtain ⟨p, hp, hpe⟩ := h
      obtain ⟨hflag, hoff⟩ := entryOf_eq_some cfg p e hpe
      have hpmem : (e.2, p.2) ∈ withOffsets rows 0 := by
        rw [hoff, Prod.mk.eta]
        exact hp
      have hpr : p.2 = raw :=
        snd_unique_of_mem_withOffsets rows 0 e.2 p.2 raw hpmem hraw
      rw [← hpr]
      exact hflag
    · cases h

theorem C8_no_leak_amended_witness :
    ("1", 14) ∈ includeEntries cfg0 rows0 ∧
    ((build cfg0 rows0).filter (fun x => x.1 = "1")).length = 1 :=
  ⟨by decide, (C8_no_leak_amended cfg0 rows0).2.1 ("1", 14) (by decide)⟩

/-- C9: when two or more include rows of the dataset derive the same lookup
key, the completed index resolves that key to the offset of the last such
row in file order — a later include row with a duplicate key supersedes any
earlier entry (last-write-wins). -/
theorem C9_last_write_wins (cfg : IndexConfig) (rows : List String) (k : String)
    (hdup : 2 ≤ ((includeEntries cfg rows).filter (fun e => e.1 = k)).length) :
    lookupKey (build cfg rows) k = lastIncludeOffset cfg rows k :=
  lookupKey_build cfg rows k

theorem C9_last_write_wins_witness :
    2 ≤ ((includeEntries cfg0 rows0).filter (fun e => e.1 = "1")).length ∧
    lookupKey (build cfg0 rows0) "1" = lastIncludeOffset cfg0 rows0 "1" ∧
    lastIncludeOffset cfg0 rows0 "1" = some 14 :=
  ⟨by decide, C9_last_write_wins cfg0 rows0 "1" (by decide), by decide⟩

/-- C10: rebuilding over unchanged input is idempotent — from any coordinator
that is not mid-build, two successive completed builds over the same dataset
and configuration both succeed, and they install identical index structures
(hence identical key ↦ offset mappings), namely `build cfg rows`. -/
theorem C10_idempotent_rebuild (cfg : IndexConfig) (rows : List String)
    (c : Coordinator) (h : c.state ≠ IndexingState.building) :
    (completeBuild cfg rows c).2 = none ∧
    (completeBuild cfg rows (completeBuild cfg rows c).1).2 = none ∧
    (completeBuild cfg rows (completeBuild cfg rows c).1).1.activeIndex =
      (completeBuild cfg rows c).1.activeIndex ∧
    (completeBuild cfg rows c).1.activeIndex = some (build cfg rows) := by
  unfold completeBuild requestBuild
  simp [h]

theorem C10_idempotent_rebuild_witness :
    (completeBuild cfg0 rows0 { state := IndexingState.idle, activeIndex := none }).2
      = none ∧
    (completeBuild cfg0 rows0
        (completeBuild cfg0 rows0
          { state := IndexingState.idle, activeIndex := none }).1).1.activeIndex =
      (completeBuild cfg0 rows0
        { state := IndexingState.idle, activeIndex := none }).1.activeIndex :=
  ⟨(C10_idempotent_rebuild cfg0 rows0
      { state := IndexingState.idle, activeIndex := none } (by decide)).1,
   (C10_idempotent_rebuild cfg0 rows0
      { state := IndexingState.idle, activeIndex := none } (by decide)).2.2.1⟩

end Engine
